import Mathlib

/-!
Shallow embedding of the core of the fluencelabs rust-peer node, for checking
the natural-language specification against the source.

Embedded components:
* `ConnectionPool` — `src/connection-pool/src/behaviour.rs`
  (`ConnectionPoolBehaviour`: `dial`, `connect`, `disconnect`, `is_connected`,
  `send`, `count_connections`, `add_discovered_addresses`,
  `add_connected_address`, `cleanup_address`, `remove_contact`,
  `on_connection_closed`).
* `Kad` — `src/crates/kademlia/src/behaviour.rs`
  (`Kademlia::discover_peer`, the timeout sweep in `Kademlia::poll`,
  `has_timed_out`, `is_banned`).
* `Actors` — `src/particle-actors/src/actor.rs`
  (`Actor::poll`, `Actor::ingest`, `Actor::execute_next`, `Actor::execute`).
* `Chain` — `src/crates/chain-connector/src/connector.rs`
  (`ChainConnector::send_tx` and its RPC reads).

PeerIds, multiaddrs and one-shot channel endpoints are modelled as natural
numbers; a `send` on a one-shot is recorded as an appended notification, in
program order.  Machine integers that the claims touch (`u128` nonce/gas,
`usize` counters, `Instant`/`Duration` arithmetic) stay far from overflow in
every statement below and are modelled as `Nat`; `Instant::duration_since`
saturates at zero, which Nat subtraction mirrors.
-/

namespace RustPeer

abbrev PeerId := Nat
abbrev Multiaddr := Nat
/-- A one-shot channel endpoint (`oneshot::Sender`), identified by a number. -/
abbrev WaiterId := Nat

/-- Association-list lookup, modelling `HashMap::get`. -/
def lookupA {α β : Type} [DecidableEq α] : List (α × β) → α → Option β
  | [], _ => none
  | (k, v) :: rest, key => if key = k then some v else lookupA rest key

/-- `HashMap::contains_key`. -/
def containsA {α β : Type} [DecidableEq α] (m : List (α × β)) (k : α) : Bool :=
  (lookupA m k).isSome

/-- Replace the value at `k` if present (`HashMap` in-place update of an
occupied entry); otherwise append the binding. -/
def setA {α β : Type} [DecidableEq α] : List (α × β) → α → β → List (α × β)
  | [], key, v => [(key, v)]
  | (k, w) :: rest, key, v =>
      if key = k then (k, v) :: rest else (k, w) :: setA rest key v

/-- `HashMap::entry(k).or_insert_with(dflt)` followed by a mutation `f`. -/
def updateA {α β : Type} [DecidableEq α] (m : List (α × β)) (k : α) (f : β → β)
    (dflt : β) : List (α × β) :=
  match lookupA m k with
  | some v => setA m k (f v)
  | none => m ++ [(k, f dflt)]

/-- `HashMap::remove`. -/
def removeA {α β : Type} [DecidableEq α] : List (α × β) → α → List (α × β)
  | [], _ => []
  | (k, v) :: rest, key => if key = k then rest else (k, v) :: removeA rest key

namespace ConnectionPool

/-- `particle_protocol::SendStatus` (`libp2p_protocol/message.rs`). -/
inductive SendStatus where
  | ok
  | timedOut (after : Nat)
  | protocolError (msg : String)
  | notConnected
  | connectionPoolDied
  deriving DecidableEq, Repr

/-- A particle as the connection pool sees it: an id, its originator and an
opaque payload (the remaining fields do not influence the pool). -/
structure Particle where
  id : Nat
  init_peer_id : PeerId
  data : Nat
  deriving DecidableEq, Repr

/-- `Contact { peer_id, addresses }`; addresses as a set, matching the
`HashSet`-deduplicated address collections the pool exchanges. -/
structure Contact where
  peer_id : PeerId
  addresses : Finset Multiaddr
  deriving DecidableEq

/-- The per-peer record `Peer` of `behaviour.rs`: connected, discovered
(via Identify, "but not connected") and dialing address sets, plus the
`dial_promises` one-shots waiting for any dial to succeed. -/
structure Peer where
  connected : Finset Multiaddr
  discovered : Finset Multiaddr
  dialing : Finset Multiaddr
  dial_promises : List WaiterId
  deriving DecidableEq

instance : Inhabited Peer := ⟨⟨∅, ∅, ∅, []⟩⟩

/-- `Peer::default()`. -/
def Peer.default : Peer := ⟨∅, ∅, ∅, []⟩

/-- `Peer::connected(addresses)`. -/
def Peer.connectedOf (addrs : Finset Multiaddr) : Peer := ⟨addrs, ∅, ∅, []⟩

/-- `Peer::dialing(addresses, outlet)`. -/
def Peer.dialingOf (addrs : Finset Multiaddr) (outlet : WaiterId) : Peer :=
  ⟨∅, ∅, addrs, [outlet]⟩

/-- `Peer::addresses()`: the deduplicated union of the three sets. -/
def Peer.addresses (p : Peer) : Finset Multiaddr :=
  p.connected ∪ p.discovered ∪ p.dialing

/-- `peer.discovered.extend(addresses)`. -/
def Peer.extendDiscovered (addresses : List Multiaddr) (p : Peer) : Peer :=
  { p with discovered := p.discovered ∪ addresses.toFinset }

/-- `NetworkBehaviourAction` values the pool pushes to the swarm
(only the variants the pool produces). -/
inductive SwarmAction where
  | dialAddr (addr : Multiaddr)
  | dialPeer (peer : PeerId) (addrs : Finset Multiaddr)
  | notifyHandler (peer : PeerId) (particle : Particle) (completion : WaiterId)
  | closeConnection (peer : PeerId)
  deriving DecidableEq

/-- A value sent on a one-shot channel by the pool. -/
inductive Notification where
  | dialResult (w : WaiterId) (contact : Option Contact)
  | boolResult (w : WaiterId) (b : Bool)
  | sendResult (w : WaiterId) (status : SendStatus)
  | countResult (w : WaiterId) (n : Nat)
  deriving DecidableEq

/-- `LifecycleEvent` of `connection_pool.rs`. -/
inductive LifecycleEvent where
  | connected (c : Contact)
  | disconnected (c : Contact)
  deriving DecidableEq

/-- The state of `ConnectionPoolBehaviour` that its operations read and
write, with the swarm-event queue, one-shot sends and lifecycle publications
recorded as ever-growing logs. -/
structure PoolState where
  peer_id : PeerId
  queue : List Particle
  contacts : List (PeerId × Peer)
  dialing : List (Multiaddr × List WaiterId)
  events : List SwarmAction
  notifications : List Notification
  lifecycle : List LifecycleEvent
  deriving DecidableEq

/-- A pool with no contacts, no queue and empty logs. -/
def PoolState.init (self : PeerId) : PoolState :=
  ⟨self, [], [], [], [], [], []⟩

/-- `ConnectionPoolBehaviour::dial`: append the waiter to the per-address
list and push a `Dial` action (one per call). -/
def dial (address : Multiaddr) (out : WaiterId) (st : PoolState) : PoolState :=
  { st with
    dialing := updateA st.dialing address (fun ws => ws ++ [out]) []
    events := st.events ++ [.dialAddr address] }

/-- `ConnectionPoolBehaviour::connect`. -/
def connect (new_contact : Contact) (outlet : WaiterId) (st : PoolState) :
    PoolState :=
  match lookupA st.contacts new_contact.peer_id with
  | some known =>
      let new_addrs : Finset Multiaddr :=
        new_contact.addresses.filter (fun a => a ∉ known.dialing)
      let not_connected : Bool :=
        decide (∃ a ∈ new_contact.addresses, a ∉ known.connected)
      let with_promise : Peer :=
        { known with dial_promises := known.dial_promises ++ [outlet] }
      let st :=
        if not_connected then
          { st with contacts := setA st.contacts new_contact.peer_id with_promise }
        else
          { st with notifications := st.notifications ++ [.boolResult outlet true] }
      if new_addrs = ∅ then st
      else { st with events := st.events ++ [.dialPeer new_contact.peer_id new_addrs] }
  | none =>
      let st := { st with contacts := st.contacts ++
        [(new_contact.peer_id, Peer.dialingOf new_contact.addresses outlet)] }
      if new_contact.addresses = ∅ then st
      else { st with events := st.events ++
        [.dialPeer new_contact.peer_id new_contact.addresses] }

/-- `ConnectionPoolBehaviour::disconnect`: push `CloseConnection` and signal
`true` immediately (fire-and-forget, per the `TODO` in the source). -/
def disconnect (peer_id : PeerId) (outlet : WaiterId) (st : PoolState) :
    PoolState :=
  { st with
    events := st.events ++ [.closeConnection peer_id]
    notifications := st.notifications ++ [.boolResult outlet true] }

/-- `ConnectionPoolBehaviour::is_connected`: `contacts.contains_key`. -/
def is_connected (peer_id : PeerId) (outlet : WaiterId) (st : PoolState) :
    PoolState :=
  { st with notifications := st.notifications ++
      [.boolResult outlet (containsA st.contacts peer_id)] }

/-- `ConnectionPoolBehaviour::get_contact_impl`. -/
def get_contact_impl (st : PoolState) (peer_id : PeerId) : Option Contact :=
  (lookupA st.contacts peer_id).map (fun c => ⟨peer_id, c.addresses⟩)

/-- `ConnectionPoolBehaviour::send` (the Rust parameter `to` is spelled
`dst` here, `to` being reserved). -/
def send (dst : Contact) (particle : Particle) (outlet : WaiterId)
    (st : PoolState) : PoolState :=
  if dst.peer_id = st.peer_id then
    { st with
      queue := st.queue ++ [particle]
      notifications := st.notifications ++ [.sendResult outlet .ok] }
  else if containsA st.contacts dst.peer_id then
    { st with events := st.events ++ [.notifyHandler dst.peer_id particle outlet] }
  else
    { st with notifications := st.notifications ++
        [.sendResult outlet .notConnected] }

/-- `ConnectionPoolBehaviour::count_connections`: `contacts.len()`. -/
def count_connections (outlet : WaiterId) (st : PoolState) : PoolState :=
  { st with notifications := st.notifications ++
      [.countResult outlet st.contacts.length] }

/-- `ConnectionPoolBehaviour::add_discovered_addresses`:
`contacts.entry(peer_id).or_default().discovered.extend(addresses)`. -/
def add_discovered_addresses (peer_id : PeerId) (addresses : List Multiaddr)
    (st : PoolState) : PoolState :=
  let contacts' :=
    updateA st.contacts peer_id (Peer.extendDiscovered addresses) Peer.default
  { st with contacts := contacts' }

/-- `ConnectionPoolBehaviour::add_connected_address`. -/
def add_connected_address (peer_id : PeerId) (maddr : Multiaddr)
    (st : PoolState) : PoolState :=
  let st1 :=
    match lookupA st.contacts peer_id with
    | some peer =>
        let now_connected : Peer :=
          { connected := insert maddr peer.connected
            discovered := peer.discovered.erase maddr
            dialing := peer.dialing.erase maddr
            dial_promises := [] }
        { st with
          contacts := setA st.contacts peer_id now_connected
          notifications := st.notifications ++
            peer.dial_promises.map (fun w => .boolResult w true) }
    | none =>
        { st with contacts := st.contacts ++
            [(peer_id, Peer.connectedOf {maddr})] }
  match lookupA st1.dialing maddr with
  | some outs =>
      { st1 with
        dialing := removeA st1.dialing maddr
        notifications := st1.notifications ++
          outs.map (fun w => .dialResult w (get_contact_impl st1 peer_id)) }
  | none => st1

/-- `ConnectionPoolBehaviour::remove_contact`. -/
def remove_contact (peer_id : PeerId) (st : PoolState) : PoolState :=
  match lookupA st.contacts peer_id with
  | some contact =>
      { st with
        contacts := removeA st.contacts peer_id
        lifecycle := st.lifecycle ++
          [.disconnected ⟨peer_id, contact.addresses⟩]
        notifications := st.notifications ++
          contact.dial_promises.map (fun w => .boolResult w false) }
  | none => st

/-- `ConnectionPoolBehaviour::cleanup_address`. -/
def cleanup_address (peer_id : Option PeerId) (addr : Multiaddr)
    (st : PoolState) : PoolState :=
  let st1 :=
    match lookupA st.dialing addr with
    | some outs =>
        { st with
          dialing := removeA st.dialing addr
          notifications := st.notifications ++
            outs.map (fun w => .dialResult w none) }
    | none => st
  match peer_id with
  | none => st1
  | some pid =>
      match lookupA st1.contacts pid with
      | none => st1
      | some contact =>
          let c1 : Peer :=
            { connected := contact.connected.erase addr
              discovered := contact.discovered.erase addr
              dialing := contact.dialing.erase addr
              dial_promises := contact.dial_promises }
          let drained := c1.dialing = ∅
          let c2 : Peer := if drained then { c1 with dial_promises := [] } else c1
          let st2 :=
            { st1 with
              contacts := setA st1.contacts pid c2
              notifications := st1.notifications ++
                (if drained then c1.dial_promises.map (fun w => .boolResult w false)
                 else []) }
          if c2.connected = ∅ ∧ c2.dialing = ∅ then remove_contact pid st2 else st2

/-- `ConnectionPoolBehaviour::on_connection_closed`: when no connection
remains established, the contact is removed; in either case the closed
address is cleaned up. -/
def on_connection_closed (peer_id : PeerId) (maddr : Multiaddr)
    (remaining_established : Nat) (st : PoolState) : PoolState :=
  let st1 := if remaining_established = 0 then remove_contact peer_id st else st
  cleanup_address (some peer_id) maddr st1

end ConnectionPool

namespace Kad

/-- `KademliaError` variants relevant to discovery
(`src/crates/kademlia/src/error.rs`, used by `behaviour.rs`). -/
inductive KademliaError where
  | noKnownPeers
  | peerBanned
  | peerTimedOut
  | noPeersFound
  | queryTimedOut
  deriving DecidableEq, Repr

/-- `PendingPeer { out, created }`. -/
structure PendingPeer where
  out : WaiterId
  created : Nat
  deriving DecidableEq, Repr

/-- `FailedPeer { ban, count }`. -/
structure FailedPeer where
  ban : Option Nat
  count : Nat
  deriving DecidableEq, Repr

/-- `FailedPeer::default()`. -/
def FailedPeer.default : FailedPeer := ⟨none, 0⟩

/-- `FailedPeer::increment`. -/
def FailedPeer.increment (f : FailedPeer) : FailedPeer :=
  { f with count := f.count + 1 }

/-- `PendingQuery`. -/
inductive PendingQuery where
  | peer (p : PeerId)
  | neighborhood (out : WaiterId)
  | unit (out : WaiterId)
  deriving DecidableEq, Repr

/-- The fields of `server_config::KademliaConfig` the wrapper reads. -/
structure KadConfig where
  query_timeout : Nat
  ban_cooldown : Nat
  peer_fail_threshold : Nat
  deriving DecidableEq, Repr

/-- A value sent on a one-shot by the Kademlia wrapper. -/
inductive KadNotification where
  | discovery (w : WaiterId) (result : Except KademliaError (List Multiaddr))

/-- The state of the `Kademlia` wrapper: the inner DHT's routing table is
modelled as the map `table` backing `addresses_of_peer`, and
`get_closest_peers` as drawing a fresh query id from `next_query_id`. -/
structure KadState where
  table : List (PeerId × List Multiaddr)
  pending_peers : List (PeerId × List PendingPeer)
  failed_peers : List (PeerId × FailedPeer)
  queries : List (Nat × PendingQuery)
  next_query_id : Nat
  notifications : List KadNotification

/-- `Kademlia::addresses_of_peer`: the addresses the routing table holds. -/
def addresses_of_peer (st : KadState) (peer : PeerId) : List Multiaddr :=
  (lookupA st.table peer).getD []

/-- `Kademlia::is_banned`: a failed-peer entry exists and its `ban` is set. -/
def is_banned (st : KadState) (peer : PeerId) : Bool :=
  match lookupA st.failed_peers peer with
  | some f => f.ban.isSome
  | none => false

/-- `Kademlia::discover_peer` (`now` stands for the `Instant::now()` taken by
`PendingPeer::new`). -/
def discover_peer (now : Nat) (peer : PeerId) (outlet : WaiterId)
    (st : KadState) : KadState :=
  let local_addrs := addresses_of_peer st peer
  if local_addrs ≠ [] then
    { st with notifications := st.notifications ++
        [.discovery outlet (.ok local_addrs)] }
  else if is_banned st peer then
    { st with notifications := st.notifications ++
        [.discovery outlet (.error .peerBanned)] }
  else
    let outlets := (lookupA st.pending_peers peer).getD []
    let discovering := outlets ≠ []
    let pending' := setA st.pending_peers peer (outlets ++ [⟨outlet, now⟩])
    let st1 := { st with pending_peers := pending' }
    if discovering then st1
    else
      { st1 with
        queries := st1.queries ++ [(st1.next_query_id, .peer peer)]
        next_query_id := st1.next_query_id + 1 }

/-- `has_timed_out` of `behaviour.rs`, without the wake-scheduling output:
with `elapsed = now − timestamp` (saturating, as `Instant` subtraction),
timed out exactly when `timeout ≤ elapsed`. -/
def has_timed_out (now timestamp timeout : Nat) : Bool :=
  timeout ≤ now - timestamp

/-- The body of the `failed_peers.retain` closure in `Kademlia::poll`:
`none` when the entry is dropped; otherwise the retained (possibly re-banned)
entry. -/
def sweep_failed_entry (cfg : KadConfig) (now : Nat) (f : FailedPeer) :
    Option FailedPeer :=
  let unban :=
    match f.ban with
    | some ban => has_timed_out now ban cfg.ban_cooldown
    | none => false
  if unban then none
  else if cfg.peer_fail_threshold ≤ f.count then some { f with ban := some now }
  else some f

/-- The `failed_peers.retain` sweep of `Kademlia::poll`. -/
def sweep_failed (cfg : KadConfig) (now : Nat)
    (failed : List (PeerId × FailedPeer)) : List (PeerId × FailedPeer) :=
  failed.filterMap (fun e => (sweep_failed_entry cfg now e.2).map (fun f => (e.1, f)))

/-- The `pending_peers.retain` sweep of `Kademlia::poll`: expired waiters are
answered `PeerTimedOut` and counted as one failure per peer; emptied entries
are dropped. -/
def sweep_pending (cfg : KadConfig) (now : Nat) (st : KadState) : KadState :=
  let expTimeout := 2 * cfg.query_timeout
  let step := fun (acc : KadState) (e : PeerId × List PendingPeer) =>
    let kept := e.2.filter (fun p => ¬ has_timed_out now p.created expTimeout)
    let expired := e.2.filter (fun p => has_timed_out now p.created expTimeout)
    let acc :=
      { acc with notifications := acc.notifications ++
          expired.map (fun p => .discovery p.out (.error .peerTimedOut)) }
    let acc :=
      if expired ≠ [] then
        { acc with failed_peers :=
            updateA acc.failed_peers e.1 FailedPeer.increment FailedPeer.default }
      else acc
    if kept ≠ [] then { acc with pending_peers := acc.pending_peers ++ [(e.1, kept)] }
    else acc
  st.pending_peers.foldl step { st with pending_peers := [] }

/-- The timeout-sweep portion of `Kademlia::poll` (after command ingestion):
early exit when both maps are empty, else sweep pending waiters, then the
failed peers. -/
def poll_sweep (cfg : KadConfig) (now : Nat) (st : KadState) : KadState :=
  if st.pending_peers = [] ∧ st.failed_peers = [] then st
  else
    let st1 := sweep_pending cfg now st
    { st1 with failed_peers := sweep_failed cfg now st1.failed_peers }

end Kad

namespace Actors

/-- A particle as the actor sees it: the runtime rewrites its `data`
(a JSON value in the source, opaque here except for objecthood). -/
inductive JVal where
  | null
  | str (s : String)
  | num (n : Nat)
  | obj (fields : List (String × JVal))

/-- Insert into a JSON object map, replacing an existing key
(`serde_json::Map::insert`). -/
def insertKey (fields : List (String × JVal)) (key : String) (v : JVal) :
    List (String × JVal) :=
  match fields with
  | [] => [(key, v)]
  | (k, w) :: rest =>
      if k = key then (k, v) :: rest else (k, w) :: insertKey rest key v

/-- Lookup in a JSON object map. -/
def getKey (fields : List (String × JVal)) (key : String) : Option JVal :=
  match fields with
  | [] => none
  | (k, w) :: rest => if key = k then some w else getKey rest key

structure Particle where
  id : Nat
  init_peer_id : PeerId
  data : JVal

/-- `ActorEvent` of `actor.rs`. -/
inductive ActorEvent where
  | forward (particle : Particle) (target : PeerId)

/-- The outcome of `parse_invoke_result` over the runtime call's result.

Modelled from the spec: `parse_invoke_result` lives in
`particle-actors/src/invoke.rs`, which is not part of the sources at hand;
the spec's runtime contract is
`call(init_peer, script, data, id) → (ret_code, message, data, next_peers)`
with success exactly when `ret_code == 0`. -/
inductive InvokeResult where
  | ok (data : JVal) (targets : List PeerId)
  | err (msg : String)

/-- Modelled from the spec: discriminate the runtime result of
`vm.call` by `ret_code`, keeping the output data and next peers on success
and the message on failure (`parse_invoke_result` is absent from the
sources; the spec says "On `ret_code == 0`, emit ... On non-zero, ..."). -/
def parse_invoke_result (ret_code : Nat) (message : String) (out_data : JVal)
    (next_peers : List PeerId) : InvokeResult :=
  if ret_code = 0 then .ok out_data next_peers else .err message

/-- The effect computation inside `Actor::execute`: on a parsed success,
replace the particle's data and forward to every target; on failure, embed
the error into the particle data (inserting an `"error"` key into an object,
or wrapping non-objects as `{"error": .., "data": ..}`) and forward the
result to the particle's `init_peer_id`. -/
def execute_effects (particle : Particle) (result : InvokeResult) :
    List ActorEvent :=
  match result with
  | .ok data targets =>
      let particle' := { particle with data := data }
      targets.map (fun target => .forward particle' target)
  | .err msg =>
      let particle' :=
        match particle.data with
        | .obj fields =>
            { particle with data := .obj (insertKey fields "error" (.str msg)) }
        | d => { particle with data := .obj [("error", .str msg), ("data", d)] }
      [.forward particle' particle.init_peer_id]

/-- `VmState` of `actor.rs`: an idle VM or exactly one executing task (the
transient `Polling` placeholder never survives `Actor::poll`); the executing
task is represented by the particle it runs. -/
inductive VmState where
  | idle
  | executing (p : Particle)

/-- How many runtime executions a `VmState` holds in flight. -/
def VmState.inFlight : VmState → Nat
  | .idle => 0
  | .executing _ => 1

/-- The actor's state as `Actor::poll`/`ingest` manipulate it, with a ghost
log `started` of the particles whose execution has been spawned, in spawn
order. -/
structure ActorState where
  vm : VmState
  mailbox : List Particle
  started : List Particle

/-- `Actor::new(config, particle)`: an idle VM, then `ingest(particle)`. -/
def ActorState.init (particle : Particle) : ActorState :=
  ⟨.idle, [particle], []⟩

/-- `Actor::ingest`: `mailbox.push_back(particle)`. -/
def ingest (particle : Particle) (s : ActorState) : ActorState :=
  { s with mailbox := s.mailbox ++ [particle] }

/-- `Actor::execute_next`: pop the mailbox front and spawn it, else go idle. -/
def execute_next (s : ActorState) : ActorState :=
  match s.mailbox with
  | [] => { s with vm := .idle }
  | p :: rest => { s with vm := .executing p, mailbox := rest, started := s.started ++ [p] }

/-- One `Actor::poll`: an idle VM spawns the next mailbox entry; an executing
task that is not ready is left alone; a ready task hands the VM back and the
next mailbox entry is spawned.  `ready` abstracts the future's poll result. -/
def poll (ready : Bool) (s : ActorState) : ActorState :=
  match s.vm with
  | .idle => execute_next s
  | .executing _ =>
      if ready then execute_next { s with vm := .idle, started := s.started }
      else s

/-- External stimuli driving one actor. -/
inductive ActorStep where
  | ingest (p : Particle)
  | poll (ready : Bool)

def applyStep (s : ActorState) : ActorStep → ActorState
  | .ingest p => ingest p s
  | .poll ready => poll ready s

/-- Run an actor created for `p0` through a list of stimuli. -/
def run (p0 : Particle) (steps : List ActorStep) : ActorState :=
  steps.foldl applyStep (ActorState.init p0)

/-- All particles ingested into the actor, in ingestion order (the seed
particle of `Actor::new` first). -/
def ingested (p0 : Particle) (steps : List ActorStep) : List Particle :=
  p0 :: steps.filterMap (fun s => match s with
    | .ingest p => some p
    | .poll _ => none)

end Actors

namespace Chain

/-- A byte string, as the `data` of a transaction. -/
abbrev Bytes := List Nat

/-- The legacy transaction `ChainConnector::send_tx` builds
(`clarity::Transaction::Legacy`, unsigned fields only). -/
structure LegacyTx where
  nonce : Nat
  gas_price : Nat
  gas_limit : Nat
  to_addr : String
  value : Nat
  data : Bytes
  deriving DecidableEq, Repr

/-- `tx.sign(&wallet_key, Some(network_id))`: signing is opaque to the
claims, so a signed transaction is the tuple of what determines it. -/
structure SignedTx where
  tx : LegacyTx
  wallet_key : Nat
  chain_id : Nat
  deriving DecidableEq, Repr

/-- The JSON-RPC responses `send_tx` consumes, each fallible
(`eth_getTransactionCount(from, "pending")`, `eth_gasPrice`,
`eth_estimateGas`, `eth_sendRawTransaction` keyed by the submitted
signed transaction). -/
structure RpcEnv where
  pending_nonce : Except String Nat
  gas_price : Except String Nat
  estimate_gas : Except String Nat
  send_raw : SignedTx → Except String String

/-- `ChainConnector::get_gas_price`: the raw `eth_gasPrice` value—with
`GAS_MULTIPLIER = 0.0` the added `increase` is `(price as f64 * 0.0) as
u128 = 0`. -/
def get_gas_price (env : RpcEnv) : Except String Nat :=
  match env.gas_price with
  | .ok price => .ok (price + 0)
  | .error e => .error e

/-- `ChainConnector::get_tx_nonce`: `eth_getTransactionCount(from,
"pending")`. -/
def get_tx_nonce (env : RpcEnv) : Except String Nat := env.pending_nonce

/-- `ChainConnector::estimate_gas_limit`. -/
def estimate_gas_limit (env : RpcEnv) : Except String Nat := env.estimate_gas

/-- `ChainConnector::send_tx`: under the nonce lock, read the pending nonce,
gas price and gas estimate, build the legacy transaction with `value = 0`,
sign it with the wallet key and configured chain id, submit it and return
the RPC response verbatim. -/
def send_tx (env : RpcEnv) (wallet_key chain_id : Nat) (data : Bytes)
    (to_addr : String) : Except String String := do
  let nonce ← get_tx_nonce env
  let gas_price ← get_gas_price env
  let gas_limit ← estimate_gas_limit env
  let tx : LegacyTx :=
    { nonce := nonce, gas_price := gas_price, gas_limit := gas_limit
      to_addr := to_addr, value := 0, data := data }
  let signed : SignedTx := ⟨tx, wallet_key, chain_id⟩
  let resp ← env.send_raw signed
  pure resp

/-- The sequence of lock and I/O operations in the body of `send_tx`, in
program order (`_lock = tx_nonce_mutex.lock()` is held until the body's
scope ends). -/
inductive TxOp where
  | acquireNonceLock
  | readNonce
  | readGasPrice
  | estimateGas
  | submitRaw
  | releaseNonceLock
  deriving DecidableEq, Repr

/-- The program-order operation trace of `ChainConnector::send_tx`. -/
def send_tx_trace : List TxOp :=
  [.acquireNonceLock, .readNonce, .readGasPrice, .estimateGas, .submitRaw,
   .releaseNonceLock]

end Chain

/-! Derived observations and concrete states used by the verification. -/

namespace ConnectionPool

/-- Count the outbound reach attempts (`Dial` actions for a bare address)
in an event log. -/
def countDialAddr (evs : List SwarmAction) : Nat :=
  (evs.filter (fun e => match e with | .dialAddr _ => true | _ => false)).length

/-- `n` concurrent `dial(a)` calls arriving back-to-back, with waiters `ws`. -/
def dials (a : Multiaddr) (ws : List WaiterId) (st : PoolState) : PoolState :=
  ws.foldl (fun s w => dial a w s) st

/-- A pool that knows peer `1` with one established connection at address
`10` (and nothing else). -/
def poolConnected10 : PoolState :=
  ⟨0, [], [(1, ⟨{10}, ∅, ∅, []⟩)], [], [], [], []⟩

/-- A pool holding a record for peer `5` with one *discovered* address `7`
and no established connection — reachable, e.g. through
`add_discovered_addresses 5 [7]` on an empty pool. -/
def poolDiscovered7 : PoolState :=
  ⟨0, [], [(5, ⟨∅, {7}, ∅, []⟩)], [], [], [], []⟩

/-- A pool connected to peer `5` at address `7`. -/
def poolPeer5Connected : PoolState :=
  ⟨0, [], [(5, ⟨{7}, ∅, ∅, []⟩)], [], [], [], []⟩

end ConnectionPool

namespace Kad

/-- threshold 1, cooldown 100 (the S5 scenario scaled to abstract ticks). -/
def cfgS5 : KadConfig := ⟨100, 100, 1⟩

/-- A wrapper state whose only content is a failed-peer entry for peer `7`,
banned at instant `0` with one counted failure. -/
def bannedAt0 : KadState := ⟨[], [], [(7, ⟨some 0, 1⟩)], [], 0, []⟩

/-- A wrapper state whose routing table holds an address for peer `5`. -/
def tableHas5 : KadState := ⟨[(5, [3])], [], [], [], 0, []⟩

/-- A wrapper state with a discovery for peer `5` already in flight. -/
def pending5 : KadState := ⟨[], [(5, [⟨9, 0⟩])], [], [(0, .peer 5)], 1, []⟩

/-- An empty wrapper state. -/
def kadEmpty : KadState := ⟨[], [], [], [], 0, []⟩

/-- A wrapper state where peer `5` is banned and nothing else is known. -/
def banned5 : KadState := ⟨[], [], [(5, ⟨some 3, 2⟩)], [], 0, []⟩

end Kad

/-- A constant-success RPC environment for exercising `send_tx`. -/
def Chain.envOk : Chain.RpcEnv :=
  ⟨.ok 4, .ok 5, .ok 6, fun _ => .ok "0xhash"⟩

/-! Association-list lemmas. -/

@[simp] theorem lookupA_nil {α β : Type} [DecidableEq α] (k : α) :
    lookupA ([] : List (α × β)) k = none := rfl

@[simp] theorem lookupA_cons {α β : Type} [DecidableEq α] (k key : α) (v : β)
    (rest : List (α × β)) :
    lookupA ((k, v) :: rest) key = if key = k then some v else lookupA rest key :=
  rfl

theorem lookupA_isSome_mem {α β : Type} [DecidableEq α]
    {m : List (α × β)} {k : α} {v : β} (hfind : lookupA m k = some v) :
    k ∈ m.map Prod.fst := by
  induction m with
  | nil => simp [lookupA] at hfind
  | cons hd tl ih =>
    obtain ⟨k2, v2⟩ := hd
    simp only [lookupA_cons] at hfind
    by_cases h2 : k = k2
    · simp [h2]
    · simp only [if_neg h2] at hfind
      simp [ih hfind]

theorem lookupA_removeA_self {α β : Type} [DecidableEq α]
    (m : List (α × β)) (k : α) (hnd : (m.map Prod.fst).Nodup) :
    lookupA (removeA m k) k = none := by
  induction m with
  | nil => rfl
  | cons hd tl ih =>
    obtain ⟨k', v⟩ := hd
    simp only [List.map_cons, List.nodup_cons] at hnd
    by_cases h : k = k'
    · subst h
      simp only [removeA, if_pos rfl]
      rcases hfind : lookupA tl k with _ | w
      · exact hfind
      · exact absurd (lookupA_isSome_mem hfind) hnd.1
    · simp only [removeA, if_neg h, lookupA_cons, if_neg h]
      exact ih hnd.2

theorem lookupA_append {α β : Type} [DecidableEq α]
    (m l : List (α × β)) (k : α) :
    lookupA (m ++ l) k =
      match lookupA m k with
      | some v => some v
      | none => lookupA l k := by
  induction m with
  | nil => simp
  | cons hd tl ih =>
    obtain ⟨k2, v2⟩ := hd
    by_cases h : k = k2 <;> simp [h, ih]

theorem lookupA_setA_self {α β : Type} [DecidableEq α]
    (m : List (α × β)) (k : α) (v : β) :
    lookupA (setA m k v) k = some v := by
  induction m with
  | nil => simp [setA]
  | cons hd tl ih =>
    obtain ⟨k2, v2⟩ := hd
    by_cases h : k = k2 <;> simp [setA, h, ih]

theorem lookupA_updateA_self {α β : Type} [DecidableEq α]
    (m : List (α × β)) (k : α) (f : β → β) (d : β) :
    lookupA (updateA m k f d) k = some (f ((lookupA m k).getD d)) := by
  unfold updateA
  rcases h : lookupA m k with _ | v
  · simp [lookupA_append, h]
  · simp [lookupA_setA_self]

/-! Claim theorems. -/

/-- C1: `add_discovered_addresses` is claimed to preserve the pairwise
disjointness of the three address sets; evaluating the source's
`discovered.extend(addresses)` on a peer whose address `10` is already
connected leaves `10` in both `connected` and `discovered`, so the claimed
invariant is broken at this input. -/
theorem ConnectionPool.add_discovered_addresses_breaks_disjointness :
    ∃ rec : ConnectionPool.Peer,
      lookupA ((ConnectionPool.add_discovered_addresses 1 [10]
          ConnectionPool.poolConnected10).contacts) 1 = some rec
      ∧ rec.connected = {10}
      ∧ rec.discovered = {10}
      ∧ rec.connected ∩ rec.discovered ≠ ∅ := by
  refine ⟨⟨{10}, {10}, ∅, []⟩, by decide, rfl, rfl, by decide⟩

/-- C2: the `failed_peers.retain` sweep removes an entry once
`banned_at + cooldown ≤ now`, but — against the claim — it also moves
`banned_at` forward to `now` for a still-banned entry whose cooldown has not
yet passed (its `count` still reaches the threshold, so `ban = Some(now)` is
re-assigned on every sweep); after an expiry sweep, `discover_peer` issues a
fresh query instead of `PeerBanned`. -/
theorem Kad.sweep_rebans_unexpired_and_removes_expired :
    (Kad.poll_sweep Kad.cfgS5 50 Kad.bannedAt0).failed_peers = [(7, ⟨some 50, 1⟩)]
    ∧ (Kad.poll_sweep Kad.cfgS5 50 Kad.bannedAt0).failed_peers ≠ [(7, ⟨some 0, 1⟩)]
    ∧ (Kad.poll_sweep Kad.cfgS5 100 Kad.bannedAt0).failed_peers = []
    ∧ (Kad.discover_peer 101 7 9
        (Kad.poll_sweep Kad.cfgS5 100 Kad.bannedAt0)).queries = [(0, .peer 7)] := by
  refine ⟨by decide, by decide, by decide, by decide⟩

/-- C3 counterexample: two concurrent `dial` calls for the same address `3`
push two `Dial` actions into the swarm-event queue, not the single reach
attempt the claim promises. -/
theorem ConnectionPool.two_dials_two_reach_attempts :
    ConnectionPool.countDialAddr
        ((ConnectionPool.dial 3 21 (ConnectionPool.dial 3 20
          (ConnectionPool.PoolState.init 0))).events) = 2
    ∧ ConnectionPool.countDialAddr
        ((ConnectionPool.dial 3 21 (ConnectionPool.dial 3 20
          (ConnectionPool.PoolState.init 0))).events) ≠ 1 := by
  refine ⟨by decide, by decide⟩

/-- C4 counterexample: a peer record for `5` exists with a discovered
address only (no live connection); `send` to `5` nevertheless hands the
particle to the network handler and does not resolve the waiter with
`NotConnected`, refuting the claim that the handler branch requires a live
connection. -/
theorem ConnectionPool.send_without_connection_not_notConnected :
    lookupA ConnectionPool.poolDiscovered7.contacts 5 = some ⟨∅, {7}, ∅, []⟩
    ∧ (ConnectionPool.send ⟨5, {7}⟩ ⟨42, 9, 0⟩ 33
        ConnectionPool.poolDiscovered7).events
      = [.notifyHandler 5 ⟨42, 9, 0⟩ 33]
    ∧ (ConnectionPool.send ⟨5, {7}⟩ ⟨42, 9, 0⟩ 33
        ConnectionPool.poolDiscovered7).notifications = []
    ∧ (ConnectionPool.send ⟨5, {7}⟩ ⟨42, 9, 0⟩ 33
        ConnectionPool.poolDiscovered7).notifications
      ≠ [.sendResult 33 .notConnected] := by
  refine ⟨by decide, by decide, by decide, by decide⟩

/-- C6 counterexample: with peer `5` connected, `disconnect(5)` followed
immediately by `is_connected(5)` answers `true`, not `false` — the
disconnect only queues a `CloseConnection` action and the contact record
is removed when the swarm later reports the close. -/
theorem ConnectionPool.disconnect_then_is_connected_still_true :
    (ConnectionPool.is_connected 5 34 (ConnectionPool.disconnect 5 33
        ConnectionPool.poolPeer5Connected)).notifications
      = [.boolResult 33 true, .boolResult 34 true]
    ∧ (ConnectionPool.is_connected 5 34 (ConnectionPool.disconnect 5 33
        ConnectionPool.poolPeer5Connected)).notifications
      ≠ [.boolResult 33 true, .boolResult 34 false] := by
  refine ⟨by decide, by decide⟩

/-- C10: after `add_discovered_addresses(p, addrs)` for a peer with no
established connection, a record with an empty `connected` set exists, yet
`is_connected(p)` answers `true` and `count_connections` counts `p`: both
report map membership, not a live connection. -/
theorem ConnectionPool.discovered_record_reported_connected
    (st : ConnectionPool.PoolState) (p : PeerId) (addrs : List Multiaddr)
    (w w2 : WaiterId)
    (hconn : ∀ rec, lookupA st.contacts p = some rec → rec.connected = ∅) :
    (∃ rec, lookupA (ConnectionPool.add_discovered_addresses p addrs st).contacts p
        = some rec ∧ rec.connected = ∅)
    ∧ p ∈ (ConnectionPool.add_discovered_addresses p addrs st).contacts.map Prod.fst
    ∧ 1 ≤ (ConnectionPool.add_discovered_addresses p addrs st).contacts.length
    ∧ (ConnectionPool.is_connected p w
          (ConnectionPool.add_discovered_addresses p addrs st)).notifications
      = (ConnectionPool.add_discovered_addresses p addrs st).notifications
        ++ [.boolResult w true]
    ∧ (ConnectionPool.count_connections w2
          (ConnectionPool.add_discovered_addresses p addrs st)).notifications
      = (ConnectionPool.add_discovered_addresses p addrs st).notifications
        ++ [.countResult w2
              (ConnectionPool.add_discovered_addresses p addrs st).contacts.length] := by
  have hlook : lookupA (ConnectionPool.add_discovered_addresses p addrs st).contacts p
      = some (ConnectionPool.Peer.extendDiscovered addrs
          ((lookupA st.contacts p).getD ConnectionPool.Peer.default)) := by
    simp [ConnectionPool.add_discovered_addresses, lookupA_updateA_self]
  have hconn' : (ConnectionPool.Peer.extendDiscovered addrs
      ((lookupA st.contacts p).getD ConnectionPool.Peer.default)).connected = ∅ := by
    rcases h : lookupA st.contacts p with _ | rec
    · simp [h, ConnectionPool.Peer.extendDiscovered, ConnectionPool.Peer.default]
    · simp [h, ConnectionPool.Peer.extendDiscovered, hconn rec h]
  have hmem : p ∈ (ConnectionPool.add_discovered_addresses p addrs st).contacts.map Prod.fst :=
    lookupA_isSome_mem hlook
  refine ⟨⟨_, hlook, hconn'⟩, hmem, ?_, ?_, rfl⟩
  · have := List.length_pos.mpr (List.ne_nil_of_mem hmem)
    simpa using this
  · simp [ConnectionPool.is_connected, containsA, hlook]

/-- C10 witness: the theorem at the empty pool, peer `5`, addresses `[7]`. -/
theorem ConnectionPool.discovered_record_reported_connected_witness :
    (∃ rec, lookupA (ConnectionPool.add_discovered_addresses 5 [7]
        (ConnectionPool.PoolState.init 0)).contacts 5 = some rec ∧ rec.connected = ∅)
    ∧ 5 ∈ (ConnectionPool.add_discovered_addresses 5 [7]
        (ConnectionPool.PoolState.init 0)).contacts.map Prod.fst
    ∧ 1 ≤ (ConnectionPool.add_discovered_addresses 5 [7]
        (ConnectionPool.PoolState.init 0)).contacts.length
    ∧ (ConnectionPool.is_connected 5 1 (ConnectionPool.add_discovered_addresses 5 [7]
          (ConnectionPool.PoolState.init 0))).notifications
      = (ConnectionPool.add_discovered_addresses 5 [7]
          (ConnectionPool.PoolState.init 0)).notifications ++ [.boolResult 1 true]
    ∧ (ConnectionPool.count_connections 2 (ConnectionPool.add_discovered_addresses 5 [7]
          (ConnectionPool.PoolState.init 0))).notifications
      = (ConnectionPool.add_discovered_addresses 5 [7]
          (ConnectionPool.PoolState.init 0)).notifications
        ++ [.countResult 2 (ConnectionPool.add_discovered_addresses 5 [7]
              (ConnectionPool.PoolState.init 0)).contacts.length] :=
  ConnectionPool.discovered_record_reported_connected
    (ConnectionPool.PoolState.init 0) 5 [7] 1 2
    (fun _ h => Option.noConfusion h)

theorem ConnectionPool.dials_effect (a : Multiaddr) (ws : List WaiterId) :
    ∀ st : ConnectionPool.PoolState,
      (ConnectionPool.dials a ws st).peer_id = st.peer_id
      ∧ (ConnectionPool.dials a ws st).queue = st.queue
      ∧ (ConnectionPool.dials a ws st).contacts = st.contacts
      ∧ (ConnectionPool.dials a ws st).notifications = st.notifications
      ∧ (ConnectionPool.dials a ws st).events
          = st.events ++ ws.map (fun _ => .dialAddr a)
      ∧ (ws ≠ [] → lookupA (ConnectionPool.dials a ws st).dialing a
          = some ((lookupA st.dialing a).getD [] ++ ws)) := by
  induction ws with
  | nil =>
    intro st
    refine ⟨rfl, rfl, rfl, rfl, by simp [ConnectionPool.dials], fun h => absurd rfl h⟩
  | cons w ws ih =>
    intro st
    have hstep : ConnectionPool.dials a (w :: ws) st
        = ConnectionPool.dials a ws (ConnectionPool.dial a w st) := rfl
    obtain ⟨h1, h2, h3, h4, h5, h6⟩ := ih (ConnectionPool.dial a w st)
    rw [hstep]
    refine ⟨h1, h2, h3, h4, ?_, ?_⟩
    · rw [h5]
      simp [ConnectionPool.dial]
    · intro _
      have hd : lookupA (ConnectionPool.dial a w st).dialing a
          = some ((lookupA st.dialing a).getD [] ++ [w]) := by
        simp [ConnectionPool.dial, lookupA_updateA_self]
      rcases hws : ws with _ | ⟨w2, ws2⟩
      · simpa [ConnectionPool.dials] using hd
      · rw [← hws]
        rw [h6 (by simp [hws]), hd]
        simp

/-- C3 (amended): each of the `n` concurrent `dial(a)` calls pushes its own
`Dial` action (`n` reach attempts in the event queue, not one), while all
`n` waiters are appended to the single per-address list and, when a
connection on `a` is established, all are notified with the same contact. -/
theorem ConnectionPool.dial_coalescing_amended (self pid : PeerId)
    (a : Multiaddr) (ws : List WaiterId) :
    (lookupA (ConnectionPool.dials a ws
        (ConnectionPool.PoolState.init self)).dialing a).getD [] = ws
    ∧ (ConnectionPool.dials a ws (ConnectionPool.PoolState.init self)).events
        = ws.map (fun _ => .dialAddr a)
    ∧ (ConnectionPool.add_connected_address pid a
          (ConnectionPool.dials a ws (ConnectionPool.PoolState.init self))).notifications
        = ws.map (fun w => .dialResult w (some ⟨pid, {a}⟩)) := by
  obtain ⟨h1, h2, h3, h4, h5, h6⟩ :=
    ConnectionPool.dials_effect a ws (ConnectionPool.PoolState.init self)
  rcases hws : ws with _ | ⟨w0, ws0⟩
  · subst hws
    refine ⟨?_, ?_, ?_⟩
    · simp [ConnectionPool.dials, ConnectionPool.PoolState.init]
    · simpa [ConnectionPool.PoolState.init] using h5
    · simp [ConnectionPool.dials, ConnectionPool.PoolState.init,
        ConnectionPool.add_connected_address, ConnectionPool.Peer.connectedOf]
  · rw [← hws]
    have hws' : ws ≠ [] := by simp [hws]
    have hdial := h6 hws'
    have hdial' : lookupA (ConnectionPool.dials a ws
        (ConnectionPool.PoolState.init self)).dialing a = some ws := by
      simpa [ConnectionPool.PoolState.init] using hdial
    refine ⟨by simp [hdial'], by simpa [ConnectionPool.PoolState.init] using h5, ?_⟩
    have hcts : (ConnectionPool.dials a ws
        (ConnectionPool.PoolState.init self)).contacts = [] := by
      simpa [ConnectionPool.PoolState.init] using h3
    have hnotif : (ConnectionPool.dials a ws
        (ConnectionPool.PoolState.init self)).notifications = [] := by
      simpa [ConnectionPool.PoolState.init] using h4
    simp only [ConnectionPool.add_connected_address, hcts, lookupA_nil]
    rw [hdial']
    simp [hnotif, ConnectionPool.get_contact_impl, ConnectionPool.Peer.connectedOf,
      ConnectionPool.Peer.addresses]

/-- C4 (amended): `send` enqueues locally and answers `Ok` when the target
is the node itself; otherwise it hands the particle to the network handler
exactly when a *peer record* exists in the contacts map (live connection or
not), and answers `NotConnected`, changing nothing else, exactly when no
record exists. -/
theorem ConnectionPool.send_amended (dst : ConnectionPool.Contact)
    (particle : ConnectionPool.Particle) (w : WaiterId)
    (st : ConnectionPool.PoolState) :
    (dst.peer_id = st.peer_id →
      ConnectionPool.send dst particle w st
        = { st with
            queue := st.queue ++ [particle]
            notifications := st.notifications ++ [.sendResult w .ok] })
    ∧ (dst.peer_id ≠ st.peer_id → containsA st.contacts dst.peer_id = true →
      ConnectionPool.send dst particle w st
        = { st with events := st.events ++ [.notifyHandler dst.peer_id particle w] })
    ∧ (dst.peer_id ≠ st.peer_id → containsA st.contacts dst.peer_id = false →
      ConnectionPool.send dst particle w st
        = { st with notifications := st.notifications ++
              [.sendResult w .notConnected] }) := by
  refine ⟨fun h => ?_, fun h hc => ?_, fun h hc => ?_⟩
  · simp [ConnectionPool.send, h]
  · simp [ConnectionPool.send, h, hc]
  · simp [ConnectionPool.send, h, hc]

/-- C4 witness: the three branches of `send_amended` at concrete pools. -/
theorem ConnectionPool.send_amended_witness :
    ConnectionPool.send ⟨0, ∅⟩ ⟨1, 2, 3⟩ 8 (ConnectionPool.PoolState.init 0)
      = { ConnectionPool.PoolState.init 0 with
          queue := [⟨1, 2, 3⟩], notifications := [.sendResult 8 .ok] }
    ∧ ConnectionPool.send ⟨5, {7}⟩ ⟨1, 2, 3⟩ 8 ConnectionPool.poolDiscovered7
      = { ConnectionPool.poolDiscovered7 with
          events := [.notifyHandler 5 ⟨1, 2, 3⟩ 8] }
    ∧ ConnectionPool.send ⟨6, ∅⟩ ⟨1, 2, 3⟩ 8 (ConnectionPool.PoolState.init 0)
      = { ConnectionPool.PoolState.init 0 with
          notifications := [.sendResult 8 .notConnected] } :=
  ⟨(ConnectionPool.send_amended ⟨0, ∅⟩ ⟨1, 2, 3⟩ 8
      (ConnectionPool.PoolState.init 0)).1 rfl,
   (ConnectionPool.send_amended ⟨5, {7}⟩ ⟨1, 2, 3⟩ 8
      ConnectionPool.poolDiscovered7).2.1 (by decide) (by decide),
   (ConnectionPool.send_amended ⟨6, ∅⟩ ⟨1, 2, 3⟩ 8
      (ConnectionPool.PoolState.init 0)).2.2 (by decide) (by decide)⟩

/-- C5: `discover_peer` returns routing-table addresses immediately when
there are any (no query started); else answers `PeerBanned` while a ban is
active (no query started); else registers the waiter — attaching to the
in-flight query with no second query when one exists, and creating exactly
one new closest-peers query otherwise. -/
theorem Kad.discover_peer_contract (st : Kad.KadState) (now : Nat)
    (p : PeerId) (w : WaiterId) :
    (Kad.addresses_of_peer st p ≠ [] →
      Kad.discover_peer now p w st
        = { st with notifications := st.notifications ++
              [.discovery w (.ok (Kad.addresses_of_peer st p))] })
    ∧ (Kad.addresses_of_peer st p = [] → Kad.is_banned st p = true →
      Kad.discover_peer now p w st
        = { st with notifications := st.notifications ++
              [.discovery w (.error .peerBanned)] })
    ∧ (Kad.addresses_of_peer st p = [] → Kad.is_banned st p = false →
        (lookupA st.pending_peers p).getD [] ≠ [] →
      (Kad.discover_peer now p w st).queries = st.queries
      ∧ (Kad.discover_peer now p w st).next_query_id = st.next_query_id
      ∧ (Kad.discover_peer now p w st).pending_peers
          = setA st.pending_peers p
              ((lookupA st.pending_peers p).getD [] ++ [⟨w, now⟩])
      ∧ (Kad.discover_peer now p w st).notifications = st.notifications)
    ∧ (Kad.addresses_of_peer st p = [] → Kad.is_banned st p = false →
        (lookupA st.pending_peers p).getD [] = [] →
      (Kad.discover_peer now p w st).queries
        = st.queries ++ [(st.next_query_id, .peer p)]
      ∧ (Kad.discover_peer now p w st).pending_peers
          = setA st.pending_peers p [⟨w, now⟩]
      ∧ (Kad.discover_peer now p w st).notifications = st.notifications) := by
  refine ⟨fun h => ?_, fun h hb => ?_, fun h hb hp => ?_, fun h hb hp => ?_⟩
  · simp [Kad.discover_peer, h]
  · simp [Kad.discover_peer, h, hb]
  · simp [Kad.discover_peer, h, hb, hp]
  · simp [Kad.discover_peer, h, hb, hp]

/-- C5 witness: the four branches of `discover_peer_contract` at concrete
wrapper states. -/
theorem Kad.discover_peer_contract_witness :
    Kad.discover_peer 0 5 9 Kad.tableHas5
      = { Kad.tableHas5 with notifications := [.discovery 9 (.ok [3])] }
    ∧ Kad.discover_peer 0 5 9 Kad.banned5
      = { Kad.banned5 with notifications := [.discovery 9 (.error .peerBanned)] }
    ∧ ((Kad.discover_peer 4 5 11 Kad.pending5).queries = Kad.pending5.queries
       ∧ (Kad.discover_peer 4 5 11 Kad.pending5).next_query_id
           = Kad.pending5.next_query_id
       ∧ (Kad.discover_peer 4 5 11 Kad.pending5).pending_peers
           = setA Kad.pending5.pending_peers 5 [⟨9, 0⟩, ⟨11, 4⟩]
       ∧ (Kad.discover_peer 4 5 11 Kad.pending5).notifications
           = Kad.pending5.notifications)
    ∧ ((Kad.discover_peer 4 5 11 Kad.kadEmpty).queries = [(0, .peer 5)]
       ∧ (Kad.discover_peer 4 5 11 Kad.kadEmpty).pending_peers
           = setA Kad.kadEmpty.pending_peers 5 [⟨11, 4⟩]
       ∧ (Kad.discover_peer 4 5 11 Kad.kadEmpty).notifications
           = Kad.kadEmpty.notifications) :=
  ⟨(Kad.discover_peer_contract Kad.tableHas5 0 5 9).1 (by decide),
   (Kad.discover_peer_contract Kad.banned5 0 5 9).2.1 (by decide) (by decide),
   (Kad.discover_peer_contract Kad.pending5 4 5 11).2.2.1
     (by decide) (by decide) (by decide),
   (Kad.discover_peer_contract Kad.kadEmpty 4 5 11).2.2.2
     (by decide) (by decide) (by decide)⟩

/-- C6 (amended): `disconnect` resolves `true` immediately and only queues a
`CloseConnection` action, leaving the contacts map untouched — so
`is_connected` answers `false` only after the swarm has reported the close
(`on_connection_closed` with no remaining connection), which removes the
record. -/
theorem ConnectionPool.disconnect_close_then_not_connected
    (st : ConnectionPool.PoolState) (p : PeerId) (a : Multiaddr)
    (w1 w2 : WaiterId) (hnd : (st.contacts.map Prod.fst).Nodup) :
    (ConnectionPool.disconnect p w1 st).contacts = st.contacts
    ∧ (ConnectionPool.disconnect p w1 st).events
        = st.events ++ [.closeConnection p]
    ∧ (ConnectionPool.disconnect p w1 st).notifications
        = st.notifications ++ [.boolResult w1 true]
    ∧ (ConnectionPool.is_connected p w2
          (ConnectionPool.on_connection_closed p a 0
            (ConnectionPool.disconnect p w1 st))).notifications
        = (ConnectionPool.on_connection_closed p a 0
            (ConnectionPool.disconnect p w1 st)).notifications
          ++ [.boolResult w2 false] := by
  refine ⟨rfl, rfl, rfl, ?_⟩
  have hrc : lookupA (ConnectionPool.remove_contact p
      (ConnectionPool.disconnect p w1 st)).contacts p = none := by
    unfold ConnectionPool.remove_contact
    rcases h : lookupA (ConnectionPool.disconnect p w1 st).contacts p with _ | ct
    · simpa using h
    · simpa using lookupA_removeA_self _ p hnd
  have hcl : lookupA (ConnectionPool.on_connection_closed p a 0
      (ConnectionPool.disconnect p w1 st)).contacts p = none := by
    unfold ConnectionPool.on_connection_closed
    simp only [if_pos rfl]
    unfold ConnectionPool.cleanup_address
    rcases hd : lookupA (ConnectionPool.remove_contact p
        (ConnectionPool.disconnect p w1 st)).dialing a with _ | outs <;>
      simp [hd, hrc]
  simp [ConnectionPool.is_connected, containsA, hcl]

/-- C6 witness: the amended theorem at the pool connected to peer `5`. -/
theorem ConnectionPool.disconnect_close_then_not_connected_witness :
    (ConnectionPool.disconnect 5 33 ConnectionPool.poolPeer5Connected).contacts
      = ConnectionPool.poolPeer5Connected.contacts
    ∧ (ConnectionPool.disconnect 5 33 ConnectionPool.poolPeer5Connected).events
      = ConnectionPool.poolPeer5Connected.events ++ [.closeConnection 5]
    ∧ (ConnectionPool.disconnect 5 33 ConnectionPool.poolPeer5Connected).notifications
      = ConnectionPool.poolPeer5Connected.notifications ++ [.boolResult 33 true]
    ∧ (ConnectionPool.is_connected 5 34
          (ConnectionPool.on_connection_closed 5 7 0
            (ConnectionPool.disconnect 5 33
              ConnectionPool.poolPeer5Connected))).notifications
      = (ConnectionPool.on_connection_closed 5 7 0
          (ConnectionPool.disconnect 5 33
            ConnectionPool.poolPeer5Connected)).notifications
        ++ [.boolResult 34 false] :=
  ConnectionPool.disconnect_close_then_not_connected
    ConnectionPool.poolPeer5Connected 5 7 33 34 (by decide)

theorem Actors.applyStep_log (s : Actors.ActorState) (step : Actors.ActorStep) :
    (Actors.applyStep s step).started ++ (Actors.applyStep s step).mailbox
      = s.started ++ s.mailbox
        ++ (match step with | .ingest p => [p] | .poll _ => []) := by
  rcases step with p | ready
  · simp [Actors.applyStep, Actors.ingest]
  · rcases s with ⟨vm, mailbox, started⟩
    rcases vm with _ | q
    · rcases mailbox with _ | ⟨p, rest⟩ <;>
        simp [Actors.applyStep, Actors.poll, Actors.execute_next]
    · rcases ready with _ | _
      · simp [Actors.applyStep, Actors.poll]
      · rcases mailbox with _ | ⟨p, rest⟩ <;>
          simp [Actors.applyStep, Actors.poll, Actors.execute_next]

theorem Actors.run_log (steps : List Actors.ActorStep) :
    ∀ s : Actors.ActorState,
      (steps.foldl Actors.applyStep s).started
          ++ (steps.foldl Actors.applyStep s).mailbox
        = s.started ++ s.mailbox
          ++ steps.filterMap (fun st => match st with
              | .ingest p => some p
              | .poll _ => none) := by
  induction steps with
  | nil => intro s; simp
  | cons a l ih =>
    intro s
    have hstep := Actors.applyStep_log s a
    rcases a with p | ready
    · simp only [List.foldl_cons, List.filterMap_cons]
      rw [ih (Actors.applyStep s (.ingest p)), hstep]
      simp
    · simp only [List.foldl_cons, List.filterMap_cons]
      rw [ih (Actors.applyStep s (.poll ready)), hstep]
      simp

/-- C7: driving one actor through any sequence of ingests and polls, the
runtime executions it has spawned, in order, followed by its remaining
mailbox, are exactly the particles ingested in ingestion order — executions
start strictly in FIFO order — and the `VmState` never holds more than one
execution in flight. -/
theorem Actors.actor_serial_fifo (p0 : Actors.Particle)
    (steps : List Actors.ActorStep) :
    (Actors.run p0 steps).started ++ (Actors.run p0 steps).mailbox
      = Actors.ingested p0 steps
    ∧ (Actors.run p0 steps).vm.inFlight ≤ 1 := by
  constructor
  · have h := Actors.run_log steps (Actors.ActorState.init p0)
    simpa [Actors.run, Actors.ingested, Actors.ActorState.init] using h
  · rcases (Actors.run p0 steps).vm <;> simp [Actors.VmState.inFlight]

theorem Actors.getKey_insertKey (fields : List (String × Actors.JVal))
    (key : String) (v : Actors.JVal) :
    Actors.getKey (Actors.insertKey fields key v) key = some v := by
  induction fields with
  | nil => simp [Actors.insertKey, Actors.getKey]
  | cons hd tl ih =>
    obtain ⟨k, w⟩ := hd
    by_cases h : k = key
    · simp [Actors.insertKey, Actors.getKey, h]
    · have h2 : ¬ key = k := fun e => h e.symm
      simp [Actors.insertKey, Actors.getKey, h, h2, ih]

/-- C8: with the runtime result split by `ret_code`, a zero return emits
exactly one `Forward` per next peer — the input particle with its data
replaced by the runtime's output — and a non-zero return emits exactly one
`Forward` to the particle's `init_peer_id` whose data embeds the error
message under an `"error"` key. -/
theorem Actors.execute_effects_contract (particle : Actors.Particle)
    (rc : Nat) (msg : String) (out_data : Actors.JVal)
    (next_peers : List PeerId) :
    (rc = 0 →
      Actors.execute_effects particle
          (Actors.parse_invoke_result rc msg out_data next_peers)
        = next_peers.map (fun target =>
            .forward { particle with data := out_data } target))
    ∧ (rc ≠ 0 →
      ∃ particle' : Actors.Particle,
        Actors.execute_effects particle
            (Actors.parse_invoke_result rc msg out_data next_peers)
          = [.forward particle' particle.init_peer_id]
        ∧ particle'.id = particle.id
        ∧ particle'.init_peer_id = particle.init_peer_id
        ∧ ∃ fields, particle'.data = .obj fields
            ∧ Actors.getKey fields "error" = some (.str msg)) := by
  constructor
  · intro h
    simp [Actors.parse_invoke_result, h, Actors.execute_effects]
  · intro h
    rcases particle with ⟨id, ipid, d⟩
    rcases d with _ | s | n | fields
    · exact ⟨⟨id, ipid, .obj [("error", .str msg), ("data", .null)]⟩,
        by simp [Actors.parse_invoke_result, h, Actors.execute_effects],
        rfl, rfl, _, rfl, by simp [Actors.getKey]⟩
    · exact ⟨⟨id, ipid, .obj [("error", .str msg), ("data", .str s)]⟩,
        by simp [Actors.parse_invoke_result, h, Actors.execute_effects],
        rfl, rfl, _, rfl, by simp [Actors.getKey]⟩
    · exact ⟨⟨id, ipid, .obj [("error", .str msg), ("data", .num n)]⟩,
        by simp [Actors.parse_invoke_result, h, Actors.execute_effects],
        rfl, rfl, _, rfl, by simp [Actors.getKey]⟩
    · exact ⟨⟨id, ipid, .obj (Actors.insertKey fields "error" (.str msg))⟩,
        by simp [Actors.parse_invoke_result, h, Actors.execute_effects],
        rfl, rfl, _, rfl, Actors.getKey_insertKey fields "error" (.str msg)⟩

/-- C8 witness: a successful run forwarding to two peers, and a failed run
returning to the originator with the error embedded. -/
theorem Actors.execute_effects_contract_witness :
    Actors.execute_effects ⟨1, 2, .null⟩
        (Actors.parse_invoke_result 0 "m" (.num 5) [3, 4])
      = [.forward ⟨1, 2, .num 5⟩ 3, .forward ⟨1, 2, .num 5⟩ 4]
    ∧ ∃ particle' : Actors.Particle,
        Actors.execute_effects ⟨1, 2, .null⟩
            (Actors.parse_invoke_result 7 "boom" (.num 5) [3])
          = [.forward particle' 2]
        ∧ particle'.id = 1
        ∧ particle'.init_peer_id = 2
        ∧ ∃ fields, particle'.data = .obj fields
            ∧ Actors.getKey fields "error" = some (.str "boom") :=
  ⟨(Actors.execute_effects_contract ⟨1, 2, .null⟩ 0 "m" (.num 5) [3, 4]).1 rfl,
   (Actors.execute_effects_contract ⟨1, 2, .null⟩ 7 "boom" (.num 5) [3]).2
     (by decide)⟩

/-- C9: a successful `send_tx` reads the pending nonce, gas price and gas
estimate, builds the legacy transaction with `value = 0` and the given data
and to-address, signs it with the wallet key and configured chain id,
submits it, and returns exactly the hash string of the
`eth_sendRawTransaction` response; in the body's operation trace the nonce
read sits strictly between acquiring and releasing the nonce mutex, and it
is the only nonce read. -/
theorem Chain.send_tx_contract (env : Chain.RpcEnv)
    (wallet_key chain_id : Nat) (data : Chain.Bytes) (to_addr : String)
    (nonce gp gl : Nat) (hash : String)
    (hn : env.pending_nonce = .ok nonce) (hg : env.gas_price = .ok gp)
    (he : env.estimate_gas = .ok gl)
    (hs : env.send_raw ⟨⟨nonce, gp, gl, to_addr, 0, data⟩, wallet_key, chain_id⟩
        = .ok hash) :
    Chain.send_tx env wallet_key chain_id data to_addr = .ok hash
    ∧ Chain.send_tx_trace.indexOf .acquireNonceLock
        < Chain.send_tx_trace.indexOf .readNonce
    ∧ Chain.send_tx_trace.indexOf .readNonce
        < Chain.send_tx_trace.indexOf .releaseNonceLock
    ∧ Chain.send_tx_trace.count .readNonce = 1 := by
  refine ⟨?_, by decide, by decide, by decide⟩
  simp [Chain.send_tx, Chain.get_tx_nonce, Chain.get_gas_price,
    Chain.estimate_gas_limit, hn, hg, he]
  simpa using hs

/-- C9 witness: `send_tx` against the constant-success RPC environment. -/
theorem Chain.send_tx_contract_witness :
    Chain.send_tx Chain.envOk 77 31337 [1, 2] "0xabc" = .ok "0xhash"
    ∧ Chain.send_tx_trace.indexOf .acquireNonceLock
        < Chain.send_tx_trace.indexOf .readNonce
    ∧ Chain.send_tx_trace.indexOf .readNonce
        < Chain.send_tx_trace.indexOf .releaseNonceLock
    ∧ Chain.send_tx_trace.count .readNonce = 1 :=
  Chain.send_tx_contract Chain.envOk 77 31337 [1, 2] "0xabc" 4 5 6 "0xhash"
    rfl rfl rfl rfl

end RustPeer
